import Mathlib

/-!
Shallow embedding of `runpod/serverless/modules/rp_job.py` and proofs about
its job-acquisition, job-execution and streaming-execution operations.

Python values that flow through this module (JSON bodies, handler outputs,
envelope fields) are modelled by the inductive type `Val`.  Python `dict`s
are modelled as association lists with unique keys (a Python dict can never
hold a duplicate key); `dict.pop(k, None)` is modelled by the pair
(`dictGet k`, `dictRemove k`), which agrees with CPython on every
duplicate-free association list and preserves insertion order of the
remaining keys, exactly as CPython does.
-/

namespace RpJob

/-- Model of a Python runtime value as far as this module inspects values:
`None`, booleans, integers, strings, lists and string-keyed dicts. -/
inductive Val where
  | none
  | bool (b : Bool)
  | int (n : Int)
  | str (s : String)
  | list (elems : List Val)
  | dict (entries : List (String × Val))

/-- Python truthiness (`bool(v)`) for the modelled values: `None`, `False`,
`0`, `""`, `[]` and `\x7b\x7d` are falsy, everything else is truthy. -/
def Val.truthy : Val → Bool
  | .none => false
  | .bool b => b
  | .int n => n != 0
  | .str s => s != ""
  | .list es => !es.isEmpty
  | .dict es => !es.isEmpty

/-- Truthiness of `dict.pop(k, None)`-style results: a missing key gives
Python `None`, which is falsy. -/
def truthyOpt : Option Val → Bool
  | Option.none => false
  | some v => v.truthy

/-- Lookup of a key in a Python dict (association-list model). -/
def dictGet (k : String) : List (String × Val) → Option Val
  | [] => Option.none
  | (k2, v) :: t => if k2 = k then some v else dictGet k t

/-- Removal of a key from a Python dict, keeping the order of the other
entries, as CPython `dict.pop` does. -/
def dictRemove (k : String) : List (String × Val) → List (String × Val)
  | [] => []
  | (k2, v) :: t => if k2 = k then dictRemove k t else (k2, v) :: dictRemove k t

/-- Shape test: is the value a Python dict? (`isinstance(jobs, dict)`). -/
def isDictShape : Val → Bool
  | .dict _ => true
  | _ => false

/-- Shape test: is the value a Python list? (`isinstance(jobs, list)`). -/
def isListShape : Val → Bool
  | .list _ => true
  | _ => false

/-!
Acquisition: `get_job(session, num_jobs)` from `rp_job.py`.

The transport interaction is modelled by its observable outcome: either the
awaited GET (or the response-body await) raises `asyncio.TimeoutError`,
or it raises some other exception, or it produces a response with a status
code and a JSON body (where parsing the body may itself raise, modelled by
`Except.error`).  The Python function body is a `try` block around the whole
interaction, so every raise inside it lands in one of the two `except`
arms, both of which fall through to the final `return []`.

The Python `return` statements with no value return Python `None`; this is
modelled by `Option.none`, while a returned list is `some` of it.
-/

/-- Observable outcome of the `session.get` / `response.json()` interaction
inside `get_job`. -/
inductive AcquireOutcome where
  | timeout
  | requestError
  | response (status : Nat) (body : Except Unit Val)

/-- Model of `get_job`: status dispatch (204, 400, other non-200, 200),
then shape dispatch of the parsed JSON body.  A dict body missing `id` or
`input` raises inside the `try`, is caught, and falls to `return []`;
a body that is neither a dict nor a list falls off the `async with` block
and also reaches `return []`. -/
def get_job : AcquireOutcome → Option (List Val)
  | .timeout => some []
  | .requestError => some []
  | .response status body =>
    if status = 204 then Option.none
    else if status = 400 then Option.none
    else if status ≠ 200 then Option.none
    else
      match body with
      | .error _ => some []
      | .ok (.dict d) =>
        if (dictGet "id" d).isSome && (dictGet "input" d).isSome then
          some [.dict d]
        else
          some []
      | .ok (.list xs) => some xs
      | .ok _ => some []

/-!
Invocation: `run_job(handler, job)` from `rp_job.py`.

The handler call together with the optional `await` is modelled by its
observable outcome: either a resolved Python value or a raised exception.
An exception is modelled by the three strings `run_job` extracts from it:
`str(type(err))`, `str(err)` and `traceback.format_exc()`.  The external
collaborator `check_return_size` is modelled as a parameter that either
succeeds or raises.  Process identity (`RUNPOD_POD_HOSTNAME`,
`RUNPOD_POD_ID` environment variables, which may be unset, and the running
`runpod` version) is modelled by an `Env` parameter.

Because `job_output.pop(...)` mutates the dict object the handler returned,
`run_job` is modelled as returning a pair: the result envelope, and the
final state of the handler's returned value after those in-place pops
(`Option.none` when the handler raised and no value exists).
-/

/-- Data `run_job` reads off a raised Python exception: `str(type(err))`,
`str(err)` and `traceback.format_exc()`. -/
structure Exn where
  type_str : String
  msg : String
  trace : String

/-- Process identity used for diagnostics: the two environment variables
(absent modelled as `Option.none`, defaulted to `"unknown"`) and the
`runpod` version string. -/
structure Env where
  hostname : Option String
  worker_id : Option String
  runpod_version : String

/-- Result envelope built by `run_job`: the Python dict `run_result` with
its three possible keys `output`, `error` and `stopPod`; an absent key is
`Option.none`. -/
structure RunResult where
  output : Option Val
  error : Option Val
  stopPod : Option Bool

/-- Diagnostic record `error_info` built in the `except` arm of
`run_job`. -/
structure ErrorInfo where
  error_type : String
  error_message : String
  error_traceback : String
  hostname : String
  worker_id : String
  runpod_version : String

/-- Construction of `error_info` from the environment and the caught
exception, with the `os.environ.get(..., "unknown")` defaults. -/
def mkErrorInfo (env : Env) (e : Exn) : ErrorInfo :=
  { error_type := e.type_str
    error_message := e.msg
    error_traceback := e.trace
    hostname := env.hostname.getD "unknown"
    worker_id := env.worker_id.getD "unknown"
    runpod_version := env.runpod_version }

/-- JSON escaping of one character, as `json.dumps` performs on the common
control characters. -/
def escChar (c : Char) : List Char :=
  if c = '"' then ['\\', '"']
  else if c = '\\' then ['\\', '\\']
  else if c = '\n' then ['\\', 'n']
  else if c = '\r' then ['\\', 'r']
  else if c = '\t' then ['\\', 't']
  else [c]

/-- JSON escaping of a string. -/
def escapeJson (s : String) : String :=
  String.mk (s.data.foldr (fun c acc => escChar c ++ acc) [])

/-- JSON rendering of a string literal. -/
def quoteJson (s : String) : String := "\"" ++ escapeJson s ++ "\""

/-- One `"key": "value"` pair as `json.dumps` renders it with its default
separators. -/
def jsonPair (k v : String) : String := quoteJson k ++ ": " ++ quoteJson v

/-- Model of `json.dumps(error_info)`: the six fields of the diagnostic
record in insertion order, with the default `json.dumps` separators. -/
def serializeErrorInfo (i : ErrorInfo) : String :=
  "\x7b" ++ jsonPair "error_type" i.error_type
    ++ ", " ++ jsonPair "error_message" i.error_message
    ++ ", " ++ jsonPair "error_traceback" i.error_traceback
    ++ ", " ++ jsonPair "hostname" i.hostname
    ++ ", " ++ jsonPair "worker_id" i.worker_id
    ++ ", " ++ jsonPair "runpod_version" i.runpod_version
    ++ "\x7d"

/-- Envelope assigned in the `except` arm:
`run_result = \x7b"error": json.dumps(error_info)\x7d`. -/
def errorEnvelope (env : Env) (e : Exn) : RunResult :=
  { output := Option.none
    error := some (Val.str (serializeErrorInfo (mkErrorInfo env e)))
    stopPod := Option.none }

/-- State of a handler-returned dict after
`job_output.pop("error", None)` and `job_output.pop("refresh_worker", None)`:
both keys removed, every other entry kept in order. -/
def remainingEntries (d : List (String × Val)) : List (String × Val) :=
  dictRemove "refresh_worker" (dictRemove "error" d)

/-- Envelope built by the `isinstance(job_output, dict)` branch of
`run_job`, before the empty-`output` pop: `output` is the popped dict
(aliasing the handler's mutated object), `error` is set only when the
popped `error` value is truthy, `stopPod` is set only when the popped
`refresh_worker` value (looked up after the `error` pop) is truthy. -/
def normDict (d : List (String × Val)) : RunResult :=
  { output := some (Val.dict (remainingEntries d))
    error :=
      if truthyOpt (dictGet "error" d) then dictGet "error" d else Option.none
    stopPod :=
      if truthyOpt (dictGet "refresh_worker" (dictRemove "error" d)) then some true
      else Option.none }

/-- Normalization of the resolved handler value into the envelope, paired
with the final state of the handler's value after the in-place pops.  The
Python `bool` branch and the final `else` branch assign the same
`\x7b"output": job_output\x7d` and are merged here. -/
def normalizeOutput : Val → RunResult × Val
  | .dict d => (normDict d, Val.dict (remainingEntries d))
  | v => ({ output := some v, error := Option.none, stopPod := Option.none }, v)

/-- Python `run_result.get("output") == \x7b\x7d`: true exactly for a
present, empty dict. -/
def isEmptyDictOpt : Option Val → Bool
  | some (.dict []) => true
  | _ => false

/-- The `if run_result.get("output") == \x7b\x7d: run_result.pop("output")`
step. -/
def popEmptyOutput (r : RunResult) : RunResult :=
  if isEmptyDictOpt r.output then { r with output := Option.none } else r

/-- Body of the `try` arm of `run_job`, up to the `check_return_size`
call: envelope after normalization and the empty-`output` pop, paired with
the mutated handler value. -/
def run_job_try (v : Val) : RunResult × Val :=
  (popEmptyOutput (normalizeOutput v).1, (normalizeOutput v).2)

/-- Model of `run_job`: on a handler exception, or on an exception from
`check_return_size`, the envelope is replaced by the diagnostic-only
`errorEnvelope`; otherwise the normalized envelope is returned.  The
second component is the final state of the handler's returned object
(mutated by the pops even when `check_return_size` raises afterwards). -/
def run_job (env : Env) (sizeCheck : RunResult → Except Exn Unit)
    (handlerOutcome : Except Exn Val) : RunResult × Option Val :=
  match handlerOutcome with
  | .error e => (errorEnvelope env e, Option.none)
  | .ok v =>
    match sizeCheck (run_job_try v).1 with
    | .ok _ => ((run_job_try v).1, some (run_job_try v).2)
    | .error e => (errorEnvelope env e, some (run_job_try v).2)

/-!
Streaming invocation: `run_job_generator(handler, job)` from `rp_job.py`.

A run of the handler's generator (synchronous or asynchronous: the two
branches of the Python function emit identically) is modelled by its
execution trace: the values it yielded, in order, and an optional
exception that terminated it.  `run_job_generator` turns that trace into
the emitted stream of partial envelopes.
-/

/-- Execution trace of one generator run: yielded items in order, then an
optional terminating exception. -/
structure GenRun where
  yielded : List Val
  fault : Option Exn

/-- One emitted partial envelope: `\x7b"output": item\x7d` or the terminal
`\x7b"error": message\x7d`. -/
inductive StreamItem where
  | out (v : Val)
  | err (s : String)

/-- Message of the terminal error partial:
`f"handler: \x7bstr(err)\x7d \ntraceback: \x7btraceback.format_exc()\x7d"`. -/
def genErrorMsg (e : Exn) : String :=
  "handler: " ++ e.msg ++ " \ntraceback: " ++ e.trace

/-- Model of `run_job_generator`: one `output` partial per yielded item in
production order; if the run ends in an exception, exactly one terminal
`error` partial and nothing after it. -/
def run_job_generator (g : GenRun) : List StreamItem :=
  g.yielded.map StreamItem.out ++
    (match g.fault with
     | some e => [StreamItem.err (genErrorMsg e)]
     | Option.none => [])

/-!
URL building: `_job_get_url(batch_size)` from `rp_job.py`.

`JOB_GET_URL` (the environment-supplied take URL with `$ID` already
substituted) and `job_list.get_job_count()` are the two pieces of ambient
state the function reads; both are parameters of the model.  Python
`str.replace` is modelled by a fuel-indexed left-to-right scan
(`replaceGo`), where the fuel is the length of the scanned list, so the
scan never runs out of fuel before the list ends.
-/

/-- Boolean test: is the first character list a prefix of the second? -/
def prefB : List Char → List Char → Bool
  | [], _ => true
  | _ :: _, [] => false
  | a :: s, b :: t => a == b && prefB s t

/-- Boolean test: does `p` occur contiguously inside the second list?
This models Python `p in s` for strings. -/
def containsSub (p : List Char) : List Char → Bool
  | [] => p.isEmpty
  | c :: t => prefB p (c :: t) || containsSub p t

/-- Substring occurrence on strings. -/
def strContains (s p : String) : Bool := containsSub p.data s.data

/-- Left-to-right scan of Python `str.replace` for the nonempty pattern
`ph :: pt`, replacing each non-overlapping match by `r`.  The fuel is an
upper bound on the scanned list length, so the `0` arm is unreachable on
the calls made by `pyReplace`. -/
def replaceGo (ph : Char) (pt r : List Char) : Nat → List Char → List Char
  | _, [] => []
  | 0, l => l
  | fuel + 1, c :: t =>
    if prefB (ph :: pt) (c :: t) then
      r ++ replaceGo ph pt r fuel (t.drop pt.length)
    else
      c :: replaceGo ph pt r fuel t

/-- Python `s.replace(p, r)`.  This module only calls it with the nonempty
pattern `"/job-take/"`; an empty pattern is mapped to the identity. -/
def pyReplace (s p r : String) : String :=
  match p.data with
  | [] => s
  | ph :: pt => String.mk (replaceGo ph pt r.data s.data.length s.data)

/-- Backpressure flag: `"1" if job_list.get_job_count() else "0"`. -/
def jipFlag (jobCount : Nat) : String := if jobCount ≠ 0 then "1" else "0"

/-- Model of `_job_get_url(batch_size)`: for a batch size above one,
rewrite the endpoint from `/job-take/` to `/job-take-batch/` and append
`batch_size` and the fixed `batch_strategy=LMove`; in both variants append
`job_in_progress` last. -/
def _job_get_url (jobGetUrl : String) (jobCount : Nat) (batch_size : Int) :
    String :=
  (if batch_size > 1 then
    pyReplace jobGetUrl "/job-take/" "/job-take-batch/"
      ++ "&batch_size=" ++ toString batch_size ++ "&batch_strategy=LMove"
  else
    jobGetUrl)
    ++ "&job_in_progress=" ++ jipFlag jobCount

/-- Concrete base URL used by the URL witness, of the shape `JOB_GET_URL`
takes after `$ID` substitution. -/
def cBase : String := "https://api.runpod.ai/v2/ep1/job-take/worker1?g=1"

/-- Concrete environment used by witnesses and counterexamples. -/
def cEnv : Env :=
  { hostname := Option.none, worker_id := Option.none, runpod_version := "1.7.0" }

/-- Concrete size check that always succeeds, used by witnesses and
counterexamples. -/
def okCheck : RunResult → Except Exn Unit := fun _ => Except.ok ()

/-- Concrete exception used by witnesses. -/
def cExn : Exn :=
  { type_str := "ValueError", msg := "boom", trace := "Traceback: boom" }

end RpJob

namespace RpJob

/-- Looking a key up after removing that same key finds nothing. -/
theorem dictGet_dictRemove_self (k : String) (d : List (String × Val)) :
    dictGet k (dictRemove k d) = Option.none := by
  induction d with
  | nil => rfl
  | cons e t ih =>
    obtain ⟨k2, v⟩ := e
    by_cases hk : k2 = k
    · simp [dictRemove, hk, ih]
    · simp [dictRemove, dictGet, hk, ih]

/-- Removing one key does not affect lookups of a different key. -/
theorem dictGet_dictRemove_ne (k k2 : String) (d : List (String × Val))
    (h : k ≠ k2) :
    dictGet k (dictRemove k2 d) = dictGet k d := by
  induction d with
  | nil => rfl
  | cons e t ih =>
    obtain ⟨k3, v⟩ := e
    by_cases hk : k3 = k2
    · have hne : ¬ k3 = k := by
        rw [hk]; exact fun hc => h hc.symm
      simp [dictRemove, dictGet, hk, hne, Ne.symm h, ih]
    · by_cases hk2 : k3 = k <;> simp [dictRemove, dictGet, hk, hk2, h, ih]

/-- Reduction of `run_job` when the size check passes. -/
theorem run_job_check_ok (env : Env) (sc : RunResult → Except Exn Unit)
    (v : Val) (h : sc (run_job_try v).1 = Except.ok ()) :
    run_job env sc (Except.ok v) = ((run_job_try v).1, some (run_job_try v).2) := by
  have h2 : run_job env sc (Except.ok v)
      = match sc (run_job_try v).1 with
        | .ok _ => ((run_job_try v).1, some (run_job_try v).2)
        | .error e => (errorEnvelope env e, some (run_job_try v).2) := rfl
  rw [h2, h]

/-- Reduction of `run_job` when the size check raises. -/
theorem run_job_check_fail (env : Env) (sc : RunResult → Except Exn Unit)
    (v : Val) (e : Exn) (h : sc (run_job_try v).1 = Except.error e) :
    run_job env sc (Except.ok v)
      = (errorEnvelope env e, some (run_job_try v).2) := by
  have h2 : run_job env sc (Except.ok v)
      = match sc (run_job_try v).1 with
        | .ok _ => ((run_job_try v).1, some (run_job_try v).2)
        | .error e2 => (errorEnvelope env e2, some (run_job_try v).2) := rfl
  rw [h2, h]

/-- C1 counterexample: on HTTP 204 `get_job` executes a bare `return`,
which yields Python `None` (here `Option.none`), not the empty list the
claim demands. -/
theorem get_job_204_returns_none :
    get_job (AcquireOutcome.response 204 (Except.ok Val.none)) = Option.none
    ∧ (Option.none : Option (List Val)) ≠ some [] := by
  exact ⟨rfl, by simp⟩

/-- C1 (amended): `get_job` never raises; HTTP 204, HTTP 400 and every
other non-200 status make it return `None` (no list at all), while a
transport timeout, any other exception during the request, and a JSON
parse failure on a 200 response all degrade to the empty list. -/
theorem get_job_failure_modes (status : Nat) (body : Except Unit Val)
    (h : status ≠ 200) :
    get_job (AcquireOutcome.response status body) = Option.none
    ∧ get_job AcquireOutcome.timeout = some []
    ∧ get_job AcquireOutcome.requestError = some []
    ∧ get_job (AcquireOutcome.response 200 (Except.error ())) = some [] := by
  refine ⟨?_, rfl, rfl, rfl⟩
  show (if status = 204 then Option.none
    else if status = 400 then Option.none
    else if status ≠ 200 then Option.none
    else
      match body with
      | .error _ => some []
      | .ok (.dict d) =>
        if (dictGet "id" d).isSome && (dictGet "input" d).isSome then
          some [.dict d]
        else
          some []
      | .ok (.list xs) => some xs
      | .ok _ => some ([] : List Val)) = Option.none
  split_ifs <;> rfl

/-- Witness for `get_job_failure_modes` at the concrete status 500. -/
theorem get_job_failure_modes_witness :
    get_job (AcquireOutcome.response 500 (Except.ok Val.none)) = Option.none :=
  (get_job_failure_modes 500 (Except.ok Val.none) (by decide)).1

/-- C6: on HTTP 200, a dict body with both `id` and `input` is wrapped into
a one-element list; a dict body missing either field raises, the raise is
caught and the empty list is returned; a list body is returned verbatim
with no per-element validation. -/
theorem get_job_200_shapes (d dm : List (String × Val)) (xs : List Val)
    (hd : (dictGet "id" d).isSome = true ∧ (dictGet "input" d).isSome = true)
    (hm : (dictGet "id" dm).isSome = false ∨ (dictGet "input" dm).isSome = false) :
    get_job (AcquireOutcome.response 200 (Except.ok (Val.dict d))) = some [Val.dict d]
    ∧ get_job (AcquireOutcome.response 200 (Except.ok (Val.dict dm))) = some []
    ∧ get_job (AcquireOutcome.response 200 (Except.ok (Val.list xs))) = some xs := by
  refine ⟨?_, ?_, rfl⟩
  · simp [get_job, hd.1, hd.2]
  · rcases hm with hm | hm <;> simp [get_job, hm]

/-- Witness for `get_job_200_shapes` at the spec examples: a legacy single
job `\x7b"id": "a", "input": \x7b\x7d\x7d`, a malformed dict `\x7b\x7d`,
and a two-element batch. -/
theorem get_job_200_shapes_witness :
    get_job (AcquireOutcome.response 200 (Except.ok
        (Val.dict [("id", Val.str "a"), ("input", Val.dict [])])))
      = some [Val.dict [("id", Val.str "a"), ("input", Val.dict [])]]
    ∧ get_job (AcquireOutcome.response 200 (Except.ok (Val.dict []))) = some []
    ∧ get_job (AcquireOutcome.response 200 (Except.ok
        (Val.list [Val.dict [("id", Val.str "a"), ("input", Val.dict [])],
                   Val.dict [("id", Val.str "b"), ("input", Val.dict [])]])))
      = some [Val.dict [("id", Val.str "a"), ("input", Val.dict [])],
              Val.dict [("id", Val.str "b"), ("input", Val.dict [])]] :=
  get_job_200_shapes
    [("id", Val.str "a"), ("input", Val.dict [])] []
    [Val.dict [("id", Val.str "a"), ("input", Val.dict [])],
     Val.dict [("id", Val.str "b"), ("input", Val.dict [])]]
    ⟨rfl, rfl⟩ (Or.inl rfl)

/-- C10: on HTTP 200 with a body that is neither a dict nor a list, both
shape branches are skipped and control falls off the `async with` block to
the final `return []`. -/
theorem get_job_scalar_body_empty (v : Val)
    (h1 : isDictShape v = false) (h2 : isListShape v = false) :
    get_job (AcquireOutcome.response 200 (Except.ok v)) = some [] := by
  cases v <;> simp_all [get_job, isDictShape, isListShape]

/-- Witness for `get_job_scalar_body_empty` at a string body. -/
theorem get_job_scalar_body_empty_witness :
    get_job (AcquireOutcome.response 200 (Except.ok (Val.str "oops"))) = some [] :=
  get_job_scalar_body_empty (Val.str "oops") rfl rfl

/-- C2: if the handler raises, or `check_return_size` raises on the
normalized envelope, `run_job` catches the exception and returns an
envelope whose sole content is `error` holding the serialized diagnostic
record; the envelope carries no `output` and no `stopPod`, and `run_job`
(a total function here) never raises. -/
theorem run_job_fault_envelope (env : Env) (sc : RunResult → Except Exn Unit)
    (hr : Except Exn Val) (e : Exn)
    (h : hr = Except.error e
      ∨ ∃ v, hr = Except.ok v ∧ sc (run_job_try v).1 = Except.error e) :
    (run_job env sc hr).1.output = Option.none
    ∧ (run_job env sc hr).1.stopPod = Option.none
    ∧ (run_job env sc hr).1.error
        = some (Val.str (serializeErrorInfo (mkErrorInfo env e))) := by
  rcases h with h | ⟨v, hv, hsc⟩
  · subst h; exact ⟨rfl, rfl, rfl⟩
  · subst hv
    simp [run_job, hsc, errorEnvelope]

/-- Witness for `run_job_fault_envelope` at a concrete raising handler. -/
theorem run_job_fault_envelope_witness :
    (run_job cEnv okCheck (Except.error cExn)).1.output = Option.none
    ∧ (run_job cEnv okCheck (Except.error cExn)).1.stopPod = Option.none
    ∧ (run_job cEnv okCheck (Except.error cExn)).1.error
        = some (Val.str (serializeErrorInfo (mkErrorInfo cEnv cExn))) :=
  run_job_fault_envelope cEnv okCheck (Except.error cExn) cExn (Or.inl rfl)

/-- C3 counterexample: for the handler return
`\x7b"error": ""\x7d` the `error` key is present, yet the envelope has no
`error` field at all (the popped value is falsy, so `if error_msg:` skips
the assignment), contradicting the claim that a present `error` value
becomes the envelope's `error`. -/
theorem run_job_falsy_error_counterexample :
    (run_job cEnv okCheck (Except.ok (Val.dict [("error", Val.str "")]))).1.error
      = Option.none
    ∧ (run_job cEnv okCheck (Except.ok (Val.dict [("error", Val.str "")]))).1.output
      = Option.none :=
  ⟨rfl, rfl⟩

/-- C3 (amended): for every handler returning a dict, `run_job` removes
the `error` key (and `refresh_worker`) from the dict; the remaining dict
becomes the envelope's `output` unless it is empty, in which case `output`
is omitted; and a present `error` value becomes the envelope's `error`
exactly when it is truthy. -/
theorem run_job_dict_envelope (env : Env) (sc : RunResult → Except Exn Unit)
    (d : List (String × Val))
    (hsc : sc (run_job_try (Val.dict d)).1 = Except.ok ()) :
    (run_job env sc (Except.ok (Val.dict d))).1.output
        = (if (remainingEntries d).isEmpty then Option.none
           else some (Val.dict (remainingEntries d)))
    ∧ (run_job env sc (Except.ok (Val.dict d))).1.error
        = (if truthyOpt (dictGet "error" d) then dictGet "error" d
           else Option.none) := by
  have hrun : (run_job env sc (Except.ok (Val.dict d))).1
      = popEmptyOutput (normDict d) := by
    rw [run_job_check_ok env sc _ hsc]
    rfl
  rw [hrun]
  constructor
  · unfold popEmptyOutput
    rcases hrem : remainingEntries d with _ | ⟨e2, t⟩
    · simp [normDict, hrem, isEmptyDictOpt]
    · simp [normDict, hrem, isEmptyDictOpt]
  · unfold popEmptyOutput
    split <;> simp [normDict]

/-- Witness for `run_job_dict_envelope` at the spec example
`\x7b"error": "x", "result": 1\x7d`, which yields
`\x7boutput: \x7b"result": 1\x7d, error: "x"\x7d`. -/
theorem run_job_dict_envelope_witness :
    (run_job cEnv okCheck
        (Except.ok (Val.dict [("error", Val.str "x"), ("result", Val.int 1)]))).1.output
      = some (Val.dict [("result", Val.int 1)])
    ∧ (run_job cEnv okCheck
        (Except.ok (Val.dict [("error", Val.str "x"), ("result", Val.int 1)]))).1.error
      = some (Val.str "x") := by
  have h := run_job_dict_envelope cEnv okCheck
    [("error", Val.str "x"), ("result", Val.int 1)] rfl
  exact ⟨by rw [h.1]; rfl, by rw [h.2]; rfl⟩

/-- C4: a generator run that yields `1` and `2` and then raises produces
exactly the three partials `\x7boutput: 1\x7d`, `\x7boutput: 2\x7d`,
`\x7berror: ...\x7d` in that order, with nothing after the terminal error
partial and the earlier partials kept unchanged. -/
theorem run_job_generator_fault_stream (e : Exn) :
    run_job_generator { yielded := [Val.int 1, Val.int 2], fault := some e }
      = [StreamItem.out (Val.int 1), StreamItem.out (Val.int 2),
         StreamItem.err (genErrorMsg e)] :=
  rfl

/-- C7: whenever the normalized handler value has an empty dict as its
`output` (and hence nothing else remaining in it), the returned envelope
omits the `output` key entirely, whatever the size check does. -/
theorem run_job_empty_output_omitted (env : Env)
    (sc : RunResult → Except Exn Unit) (v : Val)
    (h : (normalizeOutput v).1.output = some (Val.dict [])) :
    (run_job env sc (Except.ok v)).1.output = Option.none := by
  rcases hsc : sc (run_job_try v).1 with e2 | u
  · rw [run_job_check_fail env sc v e2 hsc]
    rfl
  · rw [run_job_check_ok env sc v hsc]
    show (popEmptyOutput (normalizeOutput v).1).output = Option.none
    unfold popEmptyOutput
    rw [h]
    simp [isEmptyDictOpt]

/-- Witness for `run_job_empty_output_omitted`: a handler returning
`\x7b\x7d` yields an envelope with no `output` key. -/
theorem run_job_empty_output_omitted_witness :
    (run_job cEnv okCheck (Except.ok (Val.dict []))).1.output = Option.none :=
  run_job_empty_output_omitted cEnv okCheck (Val.dict []) rfl

/-- C8: a `refresh_worker` key with a truthy value (of any type) makes the
envelope carry `stopPod = true` and leaves no `refresh_worker` key in any
dict the envelope's `output` may hold, while a falsy `refresh_worker`
value produces no `stopPod` field. -/
theorem run_job_refresh_worker_stopPod (env : Env)
    (sc : RunResult → Except Exn Unit)
    (d : List (String × Val)) (v : Val)
    (hsc : sc (run_job_try (Val.dict d)).1 = Except.ok ())
    (hget : dictGet "refresh_worker" d = some v) :
    (v.truthy = true →
      (run_job env sc (Except.ok (Val.dict d))).1.stopPod = some true
      ∧ ∀ d2, (run_job env sc (Except.ok (Val.dict d))).1.output
            = some (Val.dict d2) →
          dictGet "refresh_worker" d2 = Option.none)
    ∧ (v.truthy = false →
      (run_job env sc (Except.ok (Val.dict d))).1.stopPod = Option.none) := by
  have hrun : (run_job env sc (Except.ok (Val.dict d))).1
      = popEmptyOutput (normDict d) := by
    rw [run_job_check_ok env sc _ hsc]
    rfl
  have hget2 : dictGet "refresh_worker" (dictRemove "error" d) = some v := by
    rw [dictGet_dictRemove_ne _ _ _ (by decide)]
    exact hget
  have hstop : (popEmptyOutput (normDict d)).stopPod = (normDict d).stopPod := by
    unfold popEmptyOutput; split <;> rfl
  have hout : ∀ d2,
      (popEmptyOutput (normDict d)).output = some (Val.dict d2) →
      d2 = remainingEntries d := by
    intro d2 h2
    unfold popEmptyOutput at h2
    split at h2
    · simp at h2
    · have h3 : some (Val.dict (remainingEntries d)) = some (Val.dict d2) := by
        rw [← h2]; rfl
      injection h3 with h4
      injection h4 with h5
      exact h5.symm
  constructor
  · intro htr
    constructor
    · rw [hrun, hstop]
      show (if truthyOpt (dictGet "refresh_worker" (dictRemove "error" d))
            then some true else Option.none) = some true
      rw [hget2]
      simp [truthyOpt, htr]
    · intro d2 h2
      rw [hrun] at h2
      rw [hout d2 h2]
      unfold remainingEntries
      exact dictGet_dictRemove_self _ _
  · intro hfa
    rw [hrun, hstop]
    show (if truthyOpt (dictGet "refresh_worker" (dictRemove "error" d))
          then some true else Option.none) = Option.none
    rw [hget2]
    simp [truthyOpt, hfa]

/-- Witness for `run_job_refresh_worker_stopPod` at the truthy non-boolean
value `1`. -/
theorem run_job_refresh_worker_stopPod_witness :
    (run_job cEnv okCheck
        (Except.ok (Val.dict [("refresh_worker", Val.int 1)]))).1.stopPod
      = some true :=
  ((run_job_refresh_worker_stopPod cEnv okCheck
      [("refresh_worker", Val.int 1)] (Val.int 1) rfl rfl).1 rfl).1

/-- C9 counterexample: the handler's returned dict
`\x7b"error": "x"\x7d` does not survive `run_job` unchanged: after the
call the object the handler returned is the empty dict, so the `error`
key it held is gone, contradicting the no-mutation claim. -/
theorem run_job_mutation_counterexample :
    (run_job cEnv okCheck (Except.ok (Val.dict [("error", Val.str "x")]))).2
      = some (Val.dict [])
    ∧ dictGet "error" ([] : List (String × Val)) = Option.none :=
  ⟨rfl, rfl⟩

/-- C9 (amended): `run_job` pops `error` and `refresh_worker` out of the
handler's returned dict in place: after the call, the handler's object
holds exactly the original entries minus those two keys, in order, and
this is so on both the normal and the size-check-failure path. -/
theorem run_job_pops_in_place (env : Env) (sc : RunResult → Except Exn Unit)
    (d : List (String × Val)) :
    (run_job env sc (Except.ok (Val.dict d))).2
      = some (Val.dict (dictRemove "refresh_worker" (dictRemove "error" d))) := by
  rcases hsc : sc (run_job_try (Val.dict d)).1 with e2 | u
  · rw [run_job_check_fail env sc _ e2 hsc]
    rfl
  · rw [run_job_check_ok env sc _ hsc]
    rfl

/-- Appending two strings concatenates their character lists. -/
theorem strDataAppend (s t : String) : (s ++ t).data = s.data ++ t.data := by
  rcases s with ⟨a⟩
  rcases t with ⟨b⟩
  rfl

/-- Every list is a prefix of itself extended by anything. -/
theorem prefB_self_append (p : List Char) : ∀ t, prefB p (p ++ t) = true := by
  induction p with
  | nil => intro t; rfl
  | cons a s ih => intro t; simp [prefB, ih t]

/-- A prefix of a list is a prefix of any extension of that list. -/
theorem prefB_extend (p : List Char) :
    ∀ l b, prefB p l = true → prefB p (l ++ b) = true := by
  induction p with
  | nil => intro l b _; rfl
  | cons a s ih =>
    intro l b h
    cases l with
    | nil => exact absurd h (by simp [prefB])
    | cons d t =>
      simp only [prefB, Bool.and_eq_true] at h
      simp only [List.cons_append, prefB, Bool.and_eq_true]
      exact ⟨h.1, ih t b h.2⟩

/-- An occurrence in a list is an occurrence in any extension of it. -/
theorem contains_extend (p : List Char) :
    ∀ a b, containsSub p a = true → containsSub p (a ++ b) = true := by
  intro a
  induction a with
  | nil =>
    intro b h
    have hp : p = [] := by simpa [containsSub] using h
    subst hp
    cases b <;> simp [containsSub, prefB]
  | cons a0 a2 ih =>
    intro b h
    simp only [containsSub, Bool.or_eq_true] at h
    simp only [List.cons_append, containsSub, Bool.or_eq_true]
    rcases h with h | h
    · exact Or.inl (by simpa [List.cons_append] using prefB_extend p (a0 :: a2) b h)
    · exact Or.inr (ih b h)

/-- The pattern occurs in any list that displays it between two parts. -/
theorem contains_parts (p : List Char) :
    ∀ x y, containsSub p (x ++ (p ++ y)) = true := by
  intro x
  induction x with
  | nil =>
    intro y
    simp only [List.nil_append]
    cases p with
    | nil => cases y <;> simp [containsSub, prefB]
    | cons a s =>
      have h1 := prefB_self_append (a :: s) y
      simp only [List.cons_append] at h1
      simp [containsSub, h1]
  | cons x0 x2 ih =>
    intro y
    simp only [List.cons_append, containsSub, Bool.or_eq_true]
    exact Or.inr (ih y)

/-- Occurrence from an explicit decomposition of the list. -/
theorem contains_of_eq (p l x y : List Char) (h : l = x ++ p ++ y) :
    containsSub p l = true := by
  subst h
  rw [List.append_assoc]
  exact contains_parts p x y

/-- Extending a list by a block that starts with a character foreign to
the pattern does not change prefix matching. -/
theorem prefB_stop (c : Char) (bs : List Char) :
    ∀ p l, ¬ c ∈ p → prefB p (l ++ c :: bs) = prefB p l := by
  intro p
  induction p with
  | nil => intro l _; rfl
  | cons a s ih =>
    intro l hc
    cases l with
    | nil =>
      have hac : (a == c) = false := by
        refine beq_eq_false_iff_ne.mpr fun hcon => hc ?_
        rw [hcon]
        exact List.mem_cons_self c s
      simp [prefB, hac]
    | cons d t =>
      have hcs : ¬ c ∈ s := fun hm => hc (List.mem_cons_of_mem a hm)
      simp only [List.cons_append, prefB, List.append_eq]
      rw [ih t hcs]

/-- Extending a list by a block that starts with a character foreign to
the pattern, and that does not itself contain the pattern, does not change
occurrence. -/
theorem contains_stop (c : Char) (p : List Char) (hc : ¬ c ∈ p)
    (bs : List Char) (hb : containsSub p (c :: bs) = false) :
    ∀ a, containsSub p (a ++ c :: bs) = containsSub p a := by
  intro a
  induction a with
  | nil =>
    simp only [List.nil_append]
    rw [hb]
    cases p with
    | nil => exact absurd hb (by simp [containsSub, prefB])
    | cons x xs => rfl
  | cons a0 a2 ih =>
    simp only [List.cons_append, containsSub, List.append_eq]
    rw [ih]
    have hp := prefB_stop c bs p (a0 :: a2) hc
    simp only [List.cons_append, List.append_eq] at hp
    rw [hp]

/-- If the pattern occurs in the scanned list, the replacement occurs in
the output of the replacement scan. -/
theorem replaceGo_contains (ph : Char) (pt r : List Char) :
    ∀ fuel l, l.length ≤ fuel → containsSub (ph :: pt) l = true →
      containsSub r (replaceGo ph pt r fuel l) = true := by
  intro fuel
  induction fuel with
  | zero =>
    intro l hlen h
    have hl : l = [] := List.length_eq_zero.mp (Nat.le_zero.mp hlen)
    subst hl
    exact absurd h (by simp [containsSub])
  | succ f ih =>
    intro l hlen h
    cases l with
    | nil => exact absurd h (by simp [containsSub])
    | cons c t =>
      rw [show replaceGo ph pt r (f + 1) (c :: t)
          = if prefB (ph :: pt) (c :: t) then
              r ++ replaceGo ph pt r f (t.drop pt.length)
            else
              c :: replaceGo ph pt r f t from rfl]
      by_cases hpre : prefB (ph :: pt) (c :: t) = true
      · rw [if_pos hpre]
        exact contains_of_eq r _ [] _ rfl
      · rw [if_neg hpre]
        simp only [containsSub, Bool.or_eq_true] at h
        have h2 : containsSub (ph :: pt) t = true := by
          rcases h with h | h
          · exact absurd h hpre
          · exact h
        have hlen2 : t.length ≤ f := by
          simpa [Nat.succ_le_succ_iff] using hlen
        simp [containsSub, ih t hlen2 h2]

/-- The endpoint rewrite: if the base URL mentions `/job-take/`, the
rewritten URL mentions `/job-take-batch/`. -/
theorem pyReplace_jobtake_contains (base : String)
    (h : strContains base "/job-take/" = true) :
    strContains (pyReplace base "/job-take/" "/job-take-batch/")
      "/job-take-batch/" = true := by
  have hdef : pyReplace base "/job-take/" "/job-take-batch/"
      = String.mk (replaceGo '/' ("job-take/" : String).data
          ("/job-take-batch/" : String).data base.data.length base.data) := rfl
  rw [hdef]
  show containsSub ("/job-take-batch/" : String).data
      (replaceGo '/' ("job-take/" : String).data
        ("/job-take-batch/" : String).data base.data.length base.data) = true
  exact replaceGo_contains '/' ("job-take/" : String).data
    ("/job-take-batch/" : String).data base.data.length base.data
    (Nat.le_refl _) h

/-- C5: with a requested count of 1 the poll URL contains neither
`batch_size` nor `batch_strategy` (given a base URL that does not already
contain them); with a requested count above 1 it addresses the
`/job-take-batch/` endpoint (given a base URL on `/job-take/`) and
contains `batch_size=<N>` and `batch_strategy=LMove`; and on both variants
`job_in_progress` is appended last, with value `"1"` exactly when the
local backlog holds at least one job. -/
theorem job_get_url_params (base : String) (n : Int) (jc : Nat)
    (h1 : strContains base "batch_size" = false)
    (h2 : strContains base "batch_strategy" = false)
    (h3 : strContains base "/job-take/" = true) :
    (n = 1 → strContains (_job_get_url base jc n) "batch_size" = false
           ∧ strContains (_job_get_url base jc n) "batch_strategy" = false)
    ∧ (1 < n →
        strContains (_job_get_url base jc n) ("batch_size=" ++ toString n) = true
        ∧ strContains (_job_get_url base jc n) "batch_strategy=LMove" = true
        ∧ strContains (_job_get_url base jc n) "/job-take-batch/" = true)
    ∧ (∃ s, _job_get_url base jc n = s ++ "&job_in_progress=" ++ jipFlag jc)
    ∧ (jipFlag jc = "1" ↔ 1 ≤ jc) := by
  have hampsplit : ("&job_in_progress=" : String).data
      = '&' :: ("job_in_progress=" : String).data := by decide
  refine ⟨?_, ?_, ?_, ?_⟩
  · intro hn
    subst hn
    have hurl1 : _job_get_url base jc 1
        = base ++ "&job_in_progress=" ++ jipFlag jc := by
      unfold _job_get_url
      rw [if_neg (by norm_num)]
    have hdata : (_job_get_url base jc 1).data
        = base.data
          ++ '&' :: (("job_in_progress=" : String).data ++ (jipFlag jc).data) := by
      rw [hurl1]
      simp [strDataAppend, hampsplit, List.append_assoc]
    have hbs : containsSub ("batch_size" : String).data
        ('&' :: (("job_in_progress=" : String).data ++ (jipFlag jc).data))
        = false := by
      unfold jipFlag
      by_cases hjc : jc ≠ 0
      · rw [if_pos hjc]; decide
      · rw [if_neg hjc]; decide
    have hbt : containsSub ("batch_strategy" : String).data
        ('&' :: (("job_in_progress=" : String).data ++ (jipFlag jc).data))
        = false := by
      unfold jipFlag
      by_cases hjc : jc ≠ 0
      · rw [if_pos hjc]; decide
      · rw [if_neg hjc]; decide
    constructor
    · show containsSub ("batch_size" : String).data (_job_get_url base jc 1).data
        = false
      rw [hdata, contains_stop '&' ("batch_size" : String).data (by decide) _ hbs]
      exact h1
    · show containsSub ("batch_strategy" : String).data
          (_job_get_url base jc 1).data = false
      rw [hdata, contains_stop '&' ("batch_strategy" : String).data (by decide) _ hbt]
      exact h2
  · intro hn
    have hif : _job_get_url base jc n
        = pyReplace base "/job-take/" "/job-take-batch/"
          ++ "&batch_size=" ++ toString n ++ "&batch_strategy=LMove"
          ++ "&job_in_progress=" ++ jipFlag jc := by
      unfold _job_get_url
      rw [if_pos hn]
    refine ⟨?_, ?_, ?_⟩
    · show containsSub ("batch_size=" ++ toString n).data
          (_job_get_url base jc n).data = true
      refine contains_of_eq _ _
        ((pyReplace base "/job-take/" "/job-take-batch/").data
          ++ ("&" : String).data)
        (("&batch_strategy=LMove" : String).data
          ++ ("&job_in_progress=" : String).data ++ (jipFlag jc).data) ?_
      rw [hif]
      simp only [strDataAppend, List.append_assoc]
      simp
    · show containsSub ("batch_strategy=LMove" : String).data
          (_job_get_url base jc n).data = true
      refine contains_of_eq _ _
        ((pyReplace base "/job-take/" "/job-take-batch/").data
          ++ ("&batch_size=" : String).data ++ (toString n).data
          ++ ("&" : String).data)
        (("&job_in_progress=" : String).data ++ (jipFlag jc).data) ?_
      rw [hif]
      simp only [strDataAppend, List.append_assoc]
      simp
    · show containsSub ("/job-take-batch/" : String).data
          (_job_get_url base jc n).data = true
      have hurl : (_job_get_url base jc n).data
          = (pyReplace base "/job-take/" "/job-take-batch/").data
            ++ (("&batch_size=" : String).data ++ (toString n).data
              ++ ("&batch_strategy=LMove" : String).data
              ++ ("&job_in_progress=" : String).data ++ (jipFlag jc).data) := by
        rw [hif]
        simp [strDataAppend, List.append_assoc]
      rw [hurl]
      exact contains_extend _ _ _ (pyReplace_jobtake_contains base h3)
  · exact ⟨(if n > 1 then
        pyReplace base "/job-take/" "/job-take-batch/"
          ++ "&batch_size=" ++ toString n ++ "&batch_strategy=LMove"
      else base), rfl⟩
  · cases jc with
    | zero =>
      exact ⟨fun h0 => absurd h0 (by decide), fun hle => absurd hle (by omega)⟩
    | succ k =>
      exact ⟨fun _ => Nat.succ_le_succ (Nat.zero_le k), fun _ => rfl⟩

/-- Witness for `job_get_url_params` at a concrete base URL, with the
requested counts 1 and 5 and backlog sizes 0 and 2. -/
theorem job_get_url_params_witness :
    strContains (_job_get_url cBase 0 1) "batch_size" = false
    ∧ strContains (_job_get_url cBase 2 5) ("batch_size=" ++ toString (5 : Int))
        = true
    ∧ strContains (_job_get_url cBase 2 5) "batch_strategy=LMove" = true
    ∧ strContains (_job_get_url cBase 2 5) "/job-take-batch/" = true
    ∧ jipFlag 2 = "1" := by
  have hb1 : strContains cBase "batch_size" = false := by decide
  have hb2 : strContains cBase "batch_strategy" = false := by decide
  have hb3 : strContains cBase "/job-take/" = true := by decide
  have w1 := job_get_url_params cBase 1 0 hb1 hb2 hb3
  have w5 := job_get_url_params cBase 5 2 hb1 hb2 hb3
  exact ⟨(w1.1 rfl).1, (w5.2.1 (by norm_num)).1, (w5.2.1 (by norm_num)).2.1,
    (w5.2.1 (by norm_num)).2.2, w5.2.2.2.mpr (by omega)⟩

end RpJob
